import Mathlib

/-!
Verification development for the network_info registry-dump pipeline
(`create_tsv.py` and `create_db.py`).

The Python sources are shallowly embedded below:
* raw dump streams are lists of lines (`List String`, each line without its
  trailing newline, exactly as Python's line iteration sees them up to the
  newline terminator);
* raw blocks are lists of lines;
* regular expressions from the source are translated into deterministic
  character-level matchers that are provably equivalent to the (anchored,
  backtracking) regexes on all inputs;
* `netaddr.iprange_to_cidrs` for IPv4 is embedded as the canonical
  greedy minimal-covering-CIDR algorithm (`iprangeToCidrs`); the IPv6 use of
  netaddr and the external `irrd` RPSL parser are external collaborators and
  are passed in as function parameters;
* Python exceptions (crashes of the pipeline) are modelled with
  `Except String`.
-/

namespace NetworkInfo

/-! ### Characters and low-level string machinery -/

def isDigitC (c : Char) : Bool := 48 ≤ c.toNat && c.toNat ≤ 57

/-- Python regex `\s` (space, tab, newline, carriage return, vertical tab, form feed). -/
def isWsC (c : Char) : Bool :=
  c.toNat == 32 || c.toNat == 9 || c.toNat == 10 || c.toNat == 13 || c.toNat == 11 || c.toNat == 12

def isHexLetter (c : Char) : Bool :=
  (97 ≤ c.toNat && c.toNat ≤ 102) || (65 ≤ c.toNat && c.toNat ≤ 70)

/-- Character class `[0-9a-fA-F:\/]` of the IPv6 patterns. -/
def isV6C (c : Char) : Bool := isDigitC c || isHexLetter c || c.toNat == 58 || c.toNat == 47

/-- Characters `[0-9.]`, the alphabet of a dotted IPv4 run. -/
def isDotDigit (c : Char) : Bool := isDigitC c || c.toNat == 46

/-- Greedy span: maximal run of characters satisfying `q`, plus the rest. -/
def spanP (q : Char → Bool) (cs : List Char) : List Char × List Char :=
  (cs.takeWhile q, cs.dropWhile q)

/-- Regex `[\s]*`: consume the maximal run of whitespace. -/
def pWs (cs : List Char) : List Char := cs.dropWhile isWsC

/-- Anchored literal match: drop the pattern from the front or fail. -/
def dropPre? : List Char → List Char → Option (List Char)
  | [], cs => some cs
  | _ :: _, [] => none
  | q :: qs, c :: cs => if q == c then dropPre? qs cs else none

/-- `startsWith m l` embeds Python `l.startswith(m)`. -/
def startsWith (m : String) (l : String) : Bool := (dropPre? m.data l.data).isSome

/-- Split a character list at every separator (Python `str.split(sep)` shape). -/
def splitBy (q : Char → Bool) : List Char → List (List Char)
  | [] => [[]]
  | c :: rest =>
    if q c then [] :: splitBy q rest
    else
      match splitBy q rest with
      | g :: gs => (c :: g) :: gs
      | [] => [[c]]

def decValue (ds : List Char) : Nat := ds.foldl (fun a c => a * 10 + (c.toNat - 48)) 0

/-! ### netaddr: `iprange_to_cidrs` for IPv4

`iprange_to_cidrs(start, end)` returns the minimal set of CIDR blocks whose
union is exactly the inclusive address range: repeatedly take the largest
block that starts at the current address, is aligned to its own size, and
does not overshoot the end.  The recursion is written with explicit fuel
(`e + 1 - s` always suffices) so that it evaluates by kernel reduction. -/

structure Cidr where
  addr : Nat
  plen : Nat
deriving DecidableEq, Repr

/-- `goodSize s e sz`: a `2 ^ sz` block starting at `s` is aligned and fits in `[s, e]`. -/
def goodSize (s e sz : Nat) : Bool := s % 2 ^ sz == 0 && s + 2 ^ sz ≤ e + 1

/-- Largest admissible block size (in bits, at most 32) at address `s`. -/
def pickSize (s e : Nat) : Nat :=
  (((List.range 33).reverse).find? (goodSize s e)).getD 0

def iprangeGo : Nat → Nat → Nat → List Cidr
  | 0, _, _ => []
  | Nat.succ fuel, s, e =>
    if s ≤ e then
      Cidr.mk s (32 - pickSize s e) :: iprangeGo fuel (s + 2 ^ pickSize s e) e
    else []

def iprangeToCidrs (s e : Nat) : List Cidr := iprangeGo (e + 1 - s) s e

/-- The address set of a CIDR block, as a decidable membership test. -/
def coversB (c : Cidr) (n : Nat) : Bool :=
  decide (c.addr ≤ n) && decide (n < c.addr + 2 ^ (32 - c.plen))

/-- Two CIDR blocks share no address. -/
def disjB (c d : Cidr) : Prop := ∀ n, coversB c n = true → coversB d n = true → False

theorem pickSize_le (s e : Nat) : pickSize s e ≤ 32 := by
  unfold pickSize
  cases h : ((List.range 33).reverse).find? (goodSize s e) with
  | none => simp
  | some v =>
    have hv := List.mem_of_find?_eq_some h
    simp only [List.mem_reverse, List.mem_range] at hv
    simpa using Nat.lt_succ_iff.mp hv

theorem pickSize_good (s e : Nat) (h : s ≤ e) :
    s % 2 ^ pickSize s e = 0 ∧ s + 2 ^ pickSize s e ≤ e + 1 := by
  have h0 : goodSize s e 0 = true := by
    simp [goodSize]
    omega
  have hmem : (0 : Nat) ∈ (List.range 33).reverse := by
    simp
  have hsome : (((List.range 33).reverse).find? (goodSize s e)).isSome := by
    rw [List.find?_isSome]
    exact ⟨0, hmem, h0⟩
  cases hf : ((List.range 33).reverse).find? (goodSize s e) with
  | none => rw [hf] at hsome; simp at hsome
  | some v =>
    have hv : goodSize s e v = true := List.find?_some hf
    have : pickSize s e = v := by simp [pickSize, hf]
    rw [this]
    simp only [goodSize, Bool.and_eq_true, beq_iff_eq, decide_eq_true_eq] at hv
    exact hv

theorem one_le_two_pow (n : Nat) : 1 ≤ 2 ^ n := Nat.one_le_two_pow

/-- The blocks of `iprangeGo` cover exactly `[s, e]`, provided the fuel suffices. -/
theorem iprangeGo_covers :
    ∀ (fuel s e n : Nat), e + 1 - s ≤ fuel →
      (((iprangeGo fuel s e).any (fun c => coversB c n)) = true ↔ s ≤ n ∧ n ≤ e) := by
  intro fuel
  induction fuel with
  | zero =>
    intro s e n hf
    simp only [iprangeGo, List.any_nil, Bool.false_eq_true, false_iff]
    omega
  | succ f ih =>
    intro s e n hf
    by_cases hse : s ≤ e
    · have hgood := pickSize_good s e hse
      have hple := pickSize_le s e
      have hone := one_le_two_pow (pickSize s e)
      have h32 : 32 - (32 - pickSize s e) = pickSize s e := by omega
      simp only [iprangeGo, if_pos hse, List.any_cons, Bool.or_eq_true, coversB, h32,
        Bool.and_eq_true, decide_eq_true_eq]
      obtain ⟨k, hk⟩ : ∃ k, 2 ^ pickSize s e = k := ⟨_, rfl⟩
      rw [hk] at hgood hone ⊢
      have hrec := ih (s + k) e n (by omega)
      simp only [coversB] at hrec
      rw [hrec]
      omega
    · simp only [iprangeGo, if_neg hse, List.any_nil, Bool.false_eq_true, false_iff]
      omega

theorem iprangeGo_aligned :
    ∀ (fuel s e : Nat), ∀ c ∈ iprangeGo fuel s e,
      c.plen ≤ 32 ∧ c.addr % 2 ^ (32 - c.plen) = 0 := by
  intro fuel
  induction fuel with
  | zero => intro s e c hc; simp [iprangeGo] at hc
  | succ f ih =>
    intro s e c hc
    by_cases hse : s ≤ e
    · simp only [iprangeGo, if_pos hse, List.mem_cons] at hc
      rcases hc with hc | hc
      · subst hc
        have hgood := pickSize_good s e hse
        have hple := pickSize_le s e
        have h32 : 32 - (32 - pickSize s e) = pickSize s e := by omega
        refine ⟨?_, ?_⟩
        · show 32 - pickSize s e ≤ 32
          omega
        · show s % 2 ^ (32 - (32 - pickSize s e)) = 0
          rw [h32]
          exact hgood.1
      · exact ih _ _ c hc
    · simp [iprangeGo, if_neg hse] at hc

theorem iprangeGo_disjoint :
    ∀ (fuel s e : Nat), e + 1 - s ≤ fuel → (iprangeGo fuel s e).Pairwise disjB := by
  intro fuel
  induction fuel with
  | zero => intro s e _; simp [iprangeGo]
  | succ f ih =>
    intro s e hf
    by_cases hse : s ≤ e
    · have hgood := pickSize_good s e hse
      have hple := pickSize_le s e
      have hone := one_le_two_pow (pickSize s e)
      have h32 : 32 - (32 - pickSize s e) = pickSize s e := by omega
      simp only [iprangeGo, if_pos hse]
      obtain ⟨k, hk⟩ : ∃ k, 2 ^ pickSize s e = k := ⟨_, rfl⟩
      rw [hk] at hgood hone ⊢
      refine List.Pairwise.cons ?_ (ih _ _ (by omega))
      intro d hd n hn hdn
      simp only [coversB, h32, hk, Bool.and_eq_true, decide_eq_true_eq] at hn
      have hmem : ((iprangeGo f (s + k) e).any (fun c => coversB c n)) = true :=
        List.any_eq_true.mpr ⟨d, hd, hdn⟩
      have := (iprangeGo_covers f (s + k) e n (by omega)).mp hmem
      omega
    · simp [iprangeGo, if_neg hse]

theorem iprangeToCidrs_covers (s e n : Nat) :
    ((iprangeToCidrs s e).any (fun c => coversB c n)) = true ↔ s ≤ n ∧ n ≤ e :=
  iprangeGo_covers (e + 1 - s) s e n (Nat.le_refl _)

theorem iprangeToCidrs_aligned (s e : Nat) :
    ∀ c ∈ iprangeToCidrs s e, c.plen ≤ 32 ∧ c.addr % 2 ^ (32 - c.plen) = 0 :=
  iprangeGo_aligned (e + 1 - s) s e

theorem iprangeToCidrs_disjoint (s e : Nat) : (iprangeToCidrs s e).Pairwise disjB :=
  iprangeGo_disjoint (e + 1 - s) s e (Nat.le_refl _)

/-! ### Deterministic matchers for the source's regular expressions

The IPv4 regexes use `\d{1,3}` octets.  Because the quantifiers are greedy
and every backtracking alternative of `\d{1,3}` is still followed by a digit,
each octet is equivalent to "maximal digit run of length 1..3"; the final
octet of a whole pattern (`...\d{1,3}` with nothing after it) instead takes
the first `min 3` digits of the run and tolerates trailing characters. -/

/-- One `\d{1,3}\.` group: octet digits followed by a literal dot. -/
def pOctetDot (cs : List Char) : Option (Nat × List Char) :=
  match spanP isDigitC cs with
  | (ds, rest) =>
    if 1 ≤ ds.length && ds.length ≤ 3 then
      match rest with
      | '.' :: r => some (decValue ds, r)
      | _ => none
    else none

/-- A final `\d{1,3}` octet that is followed by more regex (must not leave digits). -/
def pOctetMid (cs : List Char) : Option (Nat × List Char) :=
  match spanP isDigitC cs with
  | (ds, rest) =>
    if 1 ≤ ds.length && ds.length ≤ 3 then some (decValue ds, rest) else none

/-- A final `\d{1,3}` octet at the end of the whole pattern (trailing text allowed). -/
def pOctetFin (cs : List Char) : Option (Nat × List Char) :=
  match spanP isDigitC cs with
  | (ds, rest) =>
    if 1 ≤ ds.length then some (decValue (ds.take 3), ds.drop 3 ++ rest) else none

/-- `(?:\d{1,3}\.){3}\d{1,3}` in mid-pattern position. -/
def pIp4Mid (cs : List Char) : Option (List Nat × List Char) := do
  let (o1, r1) ← pOctetDot cs
  let (o2, r2) ← pOctetDot r1
  let (o3, r3) ← pOctetDot r2
  let (o4, r4) ← pOctetMid r3
  some ([o1, o2, o3, o4], r4)

/-- `(?:\d{1,3}\.){3}\d{1,3}` at the end of the whole pattern. -/
def pIp4Fin (cs : List Char) : Option (List Nat) := do
  let (o1, r1) ← pOctetDot cs
  let (o2, r2) ← pOctetDot r1
  let (o3, r3) ← pOctetDot r2
  let (o4, _) ← pOctetFin r3
  some [o1, o2, o3, o4]

/-- `((?:\d{1,3}\.){3}\d{1,3})[\s]*-[\s]*((?:\d{1,3}\.){3}\d{1,3})` at one position. -/
def pIpPair (cs : List Char) : Option (List Nat × List Nat) := do
  let (a, r1) ← pIp4Mid cs
  match pWs r1 with
  | '-' :: r2 => do
    let b ← pIp4Fin (pWs r2)
    some (a, b)
  | _ => none

/-- `([0-9a-fA-F:\/]{1,43})` in mid-pattern position. -/
def pV6Mid (cs : List Char) : Option (String × List Char) :=
  match spanP isV6C cs with
  | (run, rest) =>
    if 1 ≤ run.length && run.length ≤ 43 then some (String.mk run, rest) else none

/-- `([0-9a-fA-F:\/]{1,43})` at the end of the whole pattern. -/
def pV6Fin (cs : List Char) : Option String :=
  match spanP isV6C cs with
  | (run, _) => if 1 ≤ run.length then some (String.mk (run.take 43)) else none

/-- `IPAddress` rejects dotted quads with an octet above 255. -/
def ip4Check (os : List Nat) : Bool := os.all (fun o => o ≤ 255)

/-- Integer value of a dotted quad. -/
def octetsVal (os : List Nat) : Nat := os.foldl (fun a o => a * 256 + o) 0

def ip4Str (n : Nat) : String :=
  Nat.repr (n / 16777216 % 256) ++ "." ++ Nat.repr (n / 65536 % 256) ++ "." ++
    Nat.repr (n / 256 % 256) ++ "." ++ Nat.repr (n % 256)

/-- `str(cidr)` for a netaddr IPv4 `IPNetwork`. -/
def cidrToStr (c : Cidr) : String := ip4Str c.addr ++ "/" ++ Nat.repr c.plen

/-! ### create_db.py: `parse_property_inetnum` -/

/-- `^inetnum:[\s]*((?:\d{1,3}\.){3}\d{1,3})[\s]*-[\s]*((?:\d{1,3}\.){3}\d{1,3})`
applied to one line. -/
def matchInetnumRange (line : String) : Option (List Nat × List Nat) :=
  match dropPre? "inetnum:".data line.data with
  | some rest => pIpPair (pWs rest)
  | none => none

/-- `^inet6num:[\s]*([0-9a-fA-F:\/]{1,43})` applied to one line. -/
def matchInet6num (line : String) : Option String :=
  match dropPre? "inet6num:".data line.data with
  | some rest => pV6Fin (pWs rest)
  | none => none

/-- `^inetnum:[\s]*((?:\d{1,3}\.){1,3}\d{1,3}/\d{1,2})` applied to one line.
The octet groups are all in `[0-9.]`, so the capture is the maximal dotted run
(2 to 4 groups of 1-3 digits) plus `/` plus the first one or two digits. -/
def matchLacnic (line : String) : Option String :=
  match dropPre? "inetnum:".data line.data with
  | none => none
  | some r0 =>
    match spanP isDotDigit (pWs r0) with
    | (run, rest) =>
      let parts := splitBy (fun c => c == '.') run
      if 2 ≤ parts.length && parts.length ≤ 4 &&
          parts.all (fun q => 1 ≤ q.length && q.length ≤ 3) then
        match rest with
        | '/' :: r1 =>
          match spanP isDigitC r1 with
          | (ds, _) =>
            if 1 ≤ ds.length then some (String.mk (run ++ '/' :: ds.take 2)) else none
        | _ => none
      else none

/-- The shorthand expansion applied to the LACNIC capture: Python counts the
dots, splits at `index('/')` and inserts `.0.0` or `.0` before the suffix. -/
def lacnicExpand (s : String) : String :=
  let dots := s.data.count '.'
  let pre := s.data.takeWhile (fun c => c != '/')
  let suf := s.data.dropWhile (fun c => c != '/')
  if dots == 1 then String.mk (pre ++ ".0.0".data ++ suf)
  else if dots == 2 then String.mk (pre ++ ".0".data ++ suf)
  else s

/-- Result of `parse_property_inetnum` when it does not raise: a list of
netaddr CIDR objects (IPv4 range path), raw text (IPv6 and LACNIC paths),
or Python `None` (warning logged). -/
inductive InetVal
  | cidrs (cs : List Cidr)
  | txt (s : String)
deriving DecidableEq, Repr

/-- create_db.py `parse_property_inetnum`.  `re.findall` scans the block in
order with `^`-anchored multiline patterns, so it is the first matching line.
`.error` models a `netaddr.AddrFormatError` escaping the function. -/
def parse_property_inetnum (block : List String) : Except String (Option InetVal) :=
  match block.findSome? matchInetnumRange with
  | some (o1, o2) =>
    if ip4Check o1 && ip4Check o2 then
      .ok (some (.cidrs (iprangeToCidrs (octetsVal o1) (octetsVal o2))))
    else .error "netaddr AddrFormatError"
  | none =>
    match block.findSome? matchInet6num with
    | some v => .ok (some (.txt v))
    | none =>
      match block.findSome? matchLacnic with
      | some cap => .ok (some (.txt (lacnicExpand cap)))
      | none => .ok none

/-! ### `parse_property` (both files; the create_db.py variant decodes the
same byte operations through latin-1, which is byte-transparent) -/

/-- Python `str.replace(pat, '')`: remove every occurrence, scanning left to
right and continuing after each removal.  Fuel-based so it kernel-reduces;
`cs.length` steps always suffice. -/
def removeAllGo : Nat → List Char → List Char → List Char
  | 0, _, cs => cs
  | Nat.succ f, pat, cs =>
    match cs with
    | [] => []
    | c :: rest =>
      if !pat.isEmpty && (dropPre? pat (c :: rest)).isSome then
        removeAllGo f pat ((c :: rest).drop pat.length)
      else c :: removeAllGo f pat rest

def removeAll (pat cs : List Char) : List Char := removeAllGo cs.length pat cs

/-- Python `str.strip()`. -/
def stripWs (s : String) : String :=
  String.mk (((s.data.dropWhile isWsC).reverse.dropWhile isWsC).reverse)

/-- Python `' '.join(x.split())`: collapse whitespace runs to single spaces. -/
def collapseWs (s : String) : String :=
  String.intercalate " " (((splitBy isWsC s.data).filter (fun w => w ≠ [])).map String.mk)

/-- `^name:\s?(.+)$` applied to one line: the line must start with `name:`;
`\s?` greedily eats one whitespace character if at least one value character
remains for `(.+)`. -/
def matchProp (name : String) (line : String) : Option String :=
  match dropPre? (name ++ ":").data line.data with
  | none => none
  | some [] => none
  | some (c :: tail) =>
    if isWsC c && !tail.isEmpty then some (String.mk tail) else some (String.mk (c :: tail))

/-- `parse_property(block, name)`: all captures over the block, each stripped
and with embedded `"name: "` removed twice, empties dropped, space-joined,
whitespace collapsed.  `none` models Python `None` (no line matched). -/
def parse_property (block : List String) (name : String) : Option String :=
  let captures := block.filterMap (matchProp name)
  if captures.isEmpty then none
  else
    let pat := (name ++ ": ").data
    let vals := (captures.map
      (fun v => String.mk (removeAll pat (removeAll pat (stripWs v).data)))).filter
      (fun v => v ≠ "")
    some (collapseWs (String.intercalate " " vals))

/-! ### `read_blocks`: the block segmenter of both files

Both segmenters fold the same loop over the lines of the file; they differ
only in the comment filter (create_db.py additionally skips `remarks:`
lines) and in the start-of-record predicate.  A block is represented as the
list of its lines; the appended `cust_source` attribute (written without a
trailing newline in the source) is its final line. -/

def firstLine (b : List String) : String := (b.head?).getD ""

/-- create_tsv.py `is_rpsl_block_start` (on the accumulated block). -/
def isRpslStart (b : List String) : Bool :=
  startsWith "inetnum:" (firstLine b) || startsWith "inet6num:" (firstLine b) ||
    startsWith "route:" (firstLine b) || startsWith "route6:" (firstLine b) ||
    startsWith "route-set:" (firstLine b)

/-- create_tsv.py `is_arin_block_start`. -/
def isArinStart (b : List String) : Bool :=
  startsWith "NetHandle:" (firstLine b) || startsWith "V6NetHandle:" (firstLine b) ||
    startsWith "OrgID:" (firstLine b)

def commentTsv (l : String) : Bool := startsWith "%" l || startsWith "#" l

def commentDb (l : String) : Bool :=
  startsWith "%" l || startsWith "#" l || startsWith "remarks:" l

def startTsv (b : List String) : Bool := isRpslStart b || isArinStart b

def startDb (b : List String) : Bool :=
  startsWith "inetnum:" (firstLine b) || startsWith "inet6num:" (firstLine b)

/-- Python `line.strip() == b''`. -/
def isBlank (line : String) : Bool := line.data.all isWsC

structure SegState where
  acc : List String
  blocks : List (List String)
deriving DecidableEq, Repr

/-- One iteration of the `read_blocks` loop, generic in the comment filter
and the start predicate. -/
def segStep (isCmt : String → Bool) (isStart : List String → Bool) (tag : String)
    (st : SegState) (line : String) : SegState :=
  if isCmt line then st
  else if isBlank line then
    if isStart st.acc then
      SegState.mk [] (st.blocks ++ [st.acc ++ ["cust_source: " ++ tag]])
    else SegState.mk [] st.blocks
  else SegState.mk (st.acc ++ [line]) st.blocks

/-- Generic `read_blocks` body: fold the loop, return the emitted blocks.
The pending accumulation left at end of file is dropped, exactly as in the
source (the loop has no post-processing after the last line). -/
def read_blocks_gen (isCmt : String → Bool) (isStart : List String → Bool)
    (tag : String) (lines : List String) : List (List String) :=
  (lines.foldl (segStep isCmt isStart tag) (SegState.mk [] [])).blocks

/-- create_tsv.py `read_blocks` (with the source tag already computed). -/
def read_blocks_tsv (lines : List String) (tag : String) : List (List String) :=
  read_blocks_gen commentTsv startTsv tag lines

/-- create_db.py `read_blocks`. -/
def read_blocks_db (lines : List String) (tag : String) : List (List String) :=
  read_blocks_gen commentDb startDb tag lines

/-! ### Output rows -/

/-- One TSV output row (`csv_writer.writerow` renders Python `None` as the
empty field, which `pyStr` performs). -/
structure Row where
  cidr : String
  netname : String
  description : String
  country : String
  maintained_by : String
  created : String
  last_modified : String
  source : String
deriving DecidableEq, Repr

def pyStr (o : Option String) : String := o.getD ""

/-! ### create_db.py `parse_blocks` -/

/-- The rows contributed by one block in create_db.py `parse_blocks`.
When `parse_property_inetnum` returned `None`, the source evaluates
`inetnum.decode("utf-8")` on `None`, which raises `AttributeError`. -/
def dbRows (block : List String) : Except String (List Row) := do
  let inet ← parse_property_inetnum block
  let netname := parse_property block "netname"
  let description := parse_property block "descr"
  let country := parse_property block "country"
  let maintained_by := parse_property block "mnt-by"
  let created := parse_property block "created"
  let last_modified := parse_property block "last-modified"
  let source := parse_property block "cust_source"
  let mk := fun (c : String) => Row.mk c (pyStr netname) (pyStr description) (pyStr country)
    (pyStr maintained_by) (pyStr created) (pyStr last_modified) (pyStr source)
  match inet with
  | some (.cidrs cs) => pure (cs.map (fun c => mk (cidrToStr c)))
  | some (.txt s) => pure [mk s]
  | none => .error "AttributeError: NoneType object has no attribute decode"

/-- create_db.py `parse_blocks`: rows of all blocks in order; the first
uncaught exception aborts the pipeline. -/
def parse_blocks_db (blocks : List (List String)) : Except String (List Row) := do
  let rss ← blocks.mapM dbRows
  pure rss.flatten

/-! ### create_tsv.py: `parse_arin_inetnum` and `range_to_cidr`

create_tsv.py also calls `netaddr.iprange_to_cidrs` on the two strings of an
IPv6 `NetRange`.  That call (IPv6 text parsing, netaddr's IPv6 stringifying)
is an external-library capability outside this repository; it is passed in as
a parameter `ip6 : String → String → Except String (List String)` returning
the `str(cidr)` forms, `.error` for a netaddr exception. -/

/-- A Python variable that can hold `''`/a string, a list of netaddr CIDRs,
a list of strings, or `None`. -/
inductive PyVal
  | str (s : String)
  | cidrList (cs : List Cidr)
  | strList (ss : List String)
  | pyNone
deriving DecidableEq, Repr

/-- `^NetRange:` IPv4 pair pattern applied to one line. -/
def matchNetRange4 (line : String) : Option (List Nat × List Nat) :=
  match dropPre? "NetRange:".data line.data with
  | some rest => pIpPair (pWs rest)
  | none => none

/-- `^NetRange:[\s]*([0-9a-fA-F:\/]{1,43})[\s]*-[\s]*([0-9a-fA-F:\/]{1,43})`
applied to one line. -/
def matchNetRange6 (line : String) : Option (String × String) :=
  match dropPre? "NetRange:".data line.data with
  | none => none
  | some r0 =>
    match pV6Mid (pWs r0) with
    | none => none
    | some (a, r1) =>
      match pWs r1 with
      | '-' :: r2 =>
        match pV6Fin (pWs r2) with
        | some b => some (a, b)
        | none => none
      | _ => none

/-- create_tsv.py `parse_arin_inetnum`. -/
def parse_arin_inetnum (ip6 : String → String → Except String (List String))
    (block : List String) : Except String PyVal :=
  match block.findSome? matchNetRange4 with
  | some (o1, o2) =>
    if ip4Check o1 && ip4Check o2 then
      .ok (.cidrList (iprangeToCidrs (octetsVal o1) (octetsVal o2)))
    else .error "netaddr AddrFormatError"
  | none =>
    match block.findSome? matchNetRange6 with
    | some (a, b) => (ip6 a b).map PyVal.strList
    | none => .ok .pyNone

/-- The unanchored search of `re.findall` for the bare IPv4 pair pattern:
try every start position left to right. -/
def findPair : List Char → Option (List Nat × List Nat)
  | [] => none
  | c :: t =>
    match pIpPair (c :: t) with
    | some r => some r
    | none => findPair t

/-- create_tsv.py `range_to_cidr`: if a start-end pair occurs anywhere in the
string, return `str(iprange_to_cidrs(start, end)[0])` — only the FIRST
covering block; otherwise pass the string through unchanged. -/
def range_to_cidr (inetnum : String) : Except String String :=
  match findPair inetnum.data with
  | some (o1, o2) =>
    if ip4Check o1 && ip4Check o2 then
      match iprangeToCidrs (octetsVal o1) (octetsVal o2) with
      | c :: _ => .ok (cidrToStr c)
      | [] => .error "IndexError"
    else .error "netaddr AddrFormatError"
  | none => .ok inetnum

/-! ### create_tsv.py: the RPSL branch of `parse_blocks`

The external `irrd` parser returns a mapping from attribute names to either
a single string or a list of strings. -/

inductive RVal
  | one (s : String)
  | many (ss : List String)
deriving DecidableEq, Repr

abbrev RpslData := List (String × RVal)

def rget (pd : RpslData) (k : String) : Option RVal :=
  (pd.find? (fun p => p.1 == k)).map (fun p => p.2)

/-- Python `str()` of a parsed value (lists print with brackets and quotes). -/
def pyShow : RVal → String
  | .one s => s
  | .many ss => "[" ++ String.intercalate ", " (ss.map (fun s => "'" ++ s ++ "'")) ++ "]"

/-- Python `' '.join(v)`: joins list elements; a plain string is a sequence
of its characters, so joining one interleaves spaces between characters. -/
def pyJoinSpace : RVal → String
  | .many ss => String.intercalate " " ss
  | .one s => String.intercalate " " (s.data.map (fun c => String.mk [c]))

def pvalOf : RVal → PyVal
  | .one s => .str s
  | .many ss => .strList ss

/-- The eight local variables of one `parse_blocks` iteration in
create_tsv.py, before row emission.  All are initialised to `''`. -/
structure TsvVars where
  inetnum : PyVal
  netname : Option String
  description : Option String
  country : Option String
  maintained_by : Option String
  created : Option String
  last_modified : Option String
  source : Option String
deriving DecidableEq, Repr

def initVars : TsvVars :=
  TsvVars.mk (.str "") (some "") (some "") (some "") (some "") (some "") (some "") (some "")

/-- The `inetnum`/`route`/`route-set` elif chain (lines 246-258). -/
def rpslHead (pd : RpslData) : TsvVars :=
  match rget pd "inetnum" with
  | some x => { initVars with inetnum := .str (pyShow x) }
  | none =>
    match rget pd "inet6num" with
    | some x => { initVars with inetnum := .str (pyShow x) }
    | none =>
      match rget pd "route" with
      | some x => { initVars with inetnum := .str (pyShow x) }
      | none =>
        match rget pd "route6" with
        | some x => { initVars with inetnum := .str (pyShow x) }
        | none =>
          match rget pd "route-set" with
          | some x =>
            match rget pd "members" with
            | some m => { initVars with netname := some (pyShow x), inetnum := pvalOf m }
            | none => { initVars with netname := some (pyShow x) }
          | none => initVars

def stepNetname (pd : RpslData) (v : TsvVars) : TsvVars :=
  match rget pd "netname" with
  | some x => { v with netname := some (pyShow x) }
  | none => v

def stepDescr (pd : RpslData) (v : TsvVars) : TsvVars :=
  match rget pd "descr" with
  | some x => { v with description := some (pyJoinSpace x) }
  | none => v

def stepCountry (pd : RpslData) (v : TsvVars) : TsvVars :=
  match rget pd "country" with
  | some x => { v with country := some (pyJoinSpace x) }
  | none => v

def stepMnt (pd : RpslData) (v : TsvVars) : TsvVars :=
  match rget pd "mnt-by" with
  | some x => { v with maintained_by := some (pyJoinSpace x) }
  | none => v

def stepLastModified (pd : RpslData) (v : TsvVars) : TsvVars :=
  match rget pd "last-modified" with
  | some x => { v with last_modified := some (pyJoinSpace x) }
  | none => v

def stepChanged (pd : RpslData) (v : TsvVars) : TsvVars :=
  match rget pd "changed" with
  | some x => { v with last_modified := some (pyJoinSpace x) }
  | none => v

def stepCreated (pd : RpslData) (v : TsvVars) : TsvVars :=
  match rget pd "created" with
  | some x => { v with created := some (pyJoinSpace x) }
  | none => v

def stepSource (pd : RpslData) (b : List String) (v : TsvVars) : TsvVars :=
  match rget pd "source" with
  | some x => { v with source := some (pyShow x) }
  | none => { v with source := parse_property b "cust_source" }

/-- The whole RPSL field extraction (lines 246-280), as the source's sequence
of independent `if 'attr' in parsed_data` assignments. -/
def rpslBranch (pd : RpslData) (b : List String) : TsvVars :=
  stepSource pd b (stepCreated pd (stepChanged pd (stepLastModified pd
    (stepMnt pd (stepCountry pd (stepDescr pd (stepNetname pd (rpslHead pd))))))))

/-! ### create_tsv.py: the ARIN branches and the full `parse_blocks` -/

/-- `ARIN_ORGS`: a dict keyed by the (possibly `None`) result of
`parse_property(b, 'OrgID')`, holding `(OrgName, Country)`.
A prepended entry shadows older ones, modelling dict overwrite. -/
abbrev Orgs := List (Option String × Option String × Option String)

def orgLookup (orgs : Orgs) (k : Option String) : Option (Option String × Option String) :=
  (orgs.find? (fun p => p.1 == k)).map (fun p => p.2)

/-- The `is_arin_customer` branch: register the organization, emit nothing. -/
def arinCustomer (orgs : Orgs) (b : List String) : Orgs :=
  (parse_property b "OrgID", parse_property b "OrgName", parse_property b "Country") :: orgs

/-- Python truthiness of an optional string (`None` and `''` are falsy). -/
def pyFalsy : Option String → Bool
  | none => true
  | some s => s == ""

/-- The `is_arin_network` branch: `ARIN_ORGS[orgid]` raises `KeyError` when
the OrgID was never registered. -/
def arinNetwork (ip6 : String → String → Except String (List String))
    (orgs : Orgs) (b : List String) : Except String TsvVars := do
  let inetnum ← parse_arin_inetnum ip6 b
  let netname := parse_property b "NetName"
  let d0 := parse_property b "NetHandle"
  let description := if pyFalsy d0 then parse_property b "V6NetHandle" else d0
  match orgLookup orgs (parse_property b "OrgID") with
  | none => .error "KeyError"
  | some (orgname, country) =>
    let created := parse_property b "RegDate"
    let last_modified := parse_property b "Updated"
    let source := parse_property b "cust_source"
    .ok (TsvVars.mk inetnum netname description country orgname created last_modified source)

def mkRowT (c : String) (v : TsvVars) : Row :=
  Row.mk c (pyStr v.netname) (pyStr v.description) (pyStr v.country)
    (pyStr v.maintained_by) (pyStr v.created) (pyStr v.last_modified) (pyStr v.source)

/-- Row emission (lines 284-291): one row per element when `inetnum` is a
list, else a single row; `range_to_cidr` is applied to `str(...)` of each
value.  `re.findall` on `None` raises `TypeError`. -/
def emitRows (v : TsvVars) : Except String (List Row) :=
  match v.inetnum with
  | .cidrList cs => cs.mapM (fun c => (range_to_cidr (cidrToStr c)).map (fun s => mkRowT s v))
  | .strList ss => ss.mapM (fun s => (range_to_cidr s).map (fun c => mkRowT c v))
  | .str s => (range_to_cidr s).map (fun c => [mkRowT c v])
  | .pyNone => .error "TypeError: expected string or bytes-like object"

structure TsvState where
  orgs : Orgs
  rows : List Row
deriving DecidableEq, Repr

/-- One iteration of create_tsv.py `parse_blocks` over one block.
`rpsl` is the external `rpsl_object_from_text`; when it raises, the error is
logged and control falls through to row emission with the variables still at
their initial values. -/
def tsvStep (rpsl : List String → Except String RpslData)
    (ip6 : String → String → Except String (List String))
    (st : TsvState) (b : List String) : Except String TsvState :=
  if startsWith "OrgID:" (firstLine b) then
    .ok (TsvState.mk (arinCustomer st.orgs b) st.rows)
  else if startsWith "NetHandle:" (firstLine b) || startsWith "V6NetHandle:" (firstLine b) then do
    let v ← arinNetwork ip6 st.orgs b
    let rs ← emitRows v
    .ok (TsvState.mk st.orgs (st.rows ++ rs))
  else
    let v := match rpsl b with
      | .ok pd => rpslBranch pd b
      | .error _ => initVars
    do
      let rs ← emitRows v
      .ok (TsvState.mk st.orgs (st.rows ++ rs))

/-- create_tsv.py `parse_blocks` (threading the `ARIN_ORGS` state). -/
def parse_blocks_tsv (rpsl : List String → Except String RpslData)
    (ip6 : String → String → Except String (List String))
    (st : TsvState) (blocks : List (List String)) : Except String TsvState :=
  blocks.foldlM (tsvStep rpsl ip6) st

/-! ### create_tsv.py: `get_source` and the driver `main` -/

def FILELIST : List String :=
  ["arin_db.txt",
   "afrinic.db.gz",
   "apnic.db.inet6num.gz", "apnic.db.inetnum.gz", "apnic.db.route-set.gz",
   "apnic.db.route.gz", "apnic.db.route6.gz",
   "lacnic.db.gz",
   "ripe.db.inetnum.gz", "ripe.db.inet6num.gz", "ripe.db.route-set.gz",
   "ripe.db.route.gz", "ripe.db.route6.gz",
   "arin.db.gz", "arin-nonauth.db.gz", "level3.db.gz", "nttcom.db.gz",
   "radb.db.gz", "tc.db.gz"]

def get_source (filename : String) : Option String :=
  if startsWith "afrinic" filename then some "afrinic"
  else if startsWith "apnic" filename then some "apnic"
  else if startsWith "arin" filename then some "arin"
  else if startsWith "lacnic" filename then some "lacnic"
  else if startsWith "ripe" filename then some "ripe"
  else if startsWith "level3" filename then some "level3"
  else if startsWith "nttcom" filename then some "nttcom"
  else if startsWith "radb" filename then some "radb"
  else if startsWith "tc" filename then some "tc"
  else none

/-- One iteration of the `main` loop of create_tsv.py for one FILELIST entry.
`readFile` returns the lines of an existing dump file, `none` when the file
is missing (skipped with a notice).  A `None` source tag makes the `%`-format
in `read_blocks` raise, hence the `.error`.  After the entry is handled,
`ARIN_ORGS` is emptied when — and only when — the entry is `arin_db.txt`. -/
def stepFile (rpsl : List String → Except String RpslData)
    (ip6 : String → String → Except String (List String))
    (readFile : String → Option (List String))
    (st : TsvState) (entry : String) : Except String TsvState :=
  let processed : Except String TsvState :=
    match readFile entry with
    | none => .ok st
    | some lines =>
      match get_source entry with
      | some tag => parse_blocks_tsv rpsl ip6 st (read_blocks_tsv lines tag)
      | none => .error "TypeError: %b requires a bytes-like object"
  processed.map (fun st1 => if entry == "arin_db.txt" then TsvState.mk [] st1.rows else st1)

/-- create_tsv.py `main`: the FILELIST is processed strictly in order. -/
def mainTsv (rpsl : List String → Except String RpslData)
    (ip6 : String → String → Except String (List String))
    (readFile : String → Option (List String)) : Except String TsvState :=
  FILELIST.foldlM (stepFile rpsl ip6 readFile) (TsvState.mk [] [])

/-- An external RPSL parser that always raises (a degenerate but legitimate
collaborator, used to instantiate theorems at concrete inputs). -/
def rpslFail : List String → Except String RpslData := fun _ => .error "rpsl parse failure"

/-- An external IPv6 netaddr capability that always raises. -/
def ip6Fail : String → String → Except String (List String) := fun _ _ => .error "AddrFormatError"

/-! ## The claims -/

/-- C2 (code_bug): contrary to the claim, a record whose address range
matches no known notation is NOT merely dropped: after logging the warning,
create_db.py `parse_blocks` evaluates `inetnum.decode("utf-8")` on the
returned `None`, raising `AttributeError` — the pipeline aborts instead of
continuing.  At the block `["inetnum: garbage", "cust_source: ripe"]` the
range parser yields Python `None` and `parse_blocks` crashes; the second,
perfectly parseable block is never processed and produces no row. -/
theorem c2_theorem :
    parse_property_inetnum ["inetnum: garbage", "cust_source: ripe"] = .ok none ∧
    parse_blocks_db
        [["inetnum: garbage", "cust_source: ripe"],
         ["inetnum: 10.0.0.0 - 10.0.0.255", "netname: OK-NET", "cust_source: ripe"]] =
      .error "AttributeError: NoneType object has no attribute decode" := by
  constructor
  · rfl
  · rfl

/-- C3 (code_bug): a `NetHandle:` block referencing an OrgID with no
preceding Organization block does NOT yield a logged lookup failure with the
block skipped; `ARIN_ORGS[orgid]` raises an uncaught `KeyError` and the
pipeline aborts — the following block is never processed. -/
theorem c3_theorem :
    parse_blocks_tsv rpslFail ip6Fail (TsvState.mk [] [])
        [["NetHandle: NET-10-0-0-0-1", "NetRange: 10.0.0.0 - 10.0.0.255",
          "OrgID: ORG-TEST", "cust_source: arin"],
         ["OrgID: ORG-TEST", "OrgName: Acme Corp", "Country: US"]] =
      .error "KeyError" := by
  rfl

/-- C4 (code_bug): when the external RPSL parser raises on a free-text
block, the error is logged but the block is NOT skipped: control falls
through to row emission with all variables still at their initial `''`
values, so one row with an empty (malformed) cidr field and all-empty
attributes IS written for the block. -/
theorem c4_theorem :
    parse_blocks_tsv rpslFail ip6Fail (TsvState.mk [] [])
        [["route: garbage", "cust_source: ripe"]] =
      .ok (TsvState.mk [] [Row.mk "" "" "" "" "" "" "" ""]) := by
  rfl

/-- C5 (code_bug): an input stream that ends with a pending accumulation
satisfying the start predicate (no trailing blank line) loses that block:
both `read_blocks` loops have no end-of-file finalisation, so the block is
silently dropped, while the same stream followed by a blank line emits it. -/
theorem c5_theorem :
    startTsv ["inetnum: 1.0.0.0 - 1.0.0.255"] = true ∧
    read_blocks_tsv ["inetnum: 1.0.0.0 - 1.0.0.255"] "ripe" = [] ∧
    startDb ["inetnum: 1.0.0.0 - 1.0.0.255"] = true ∧
    read_blocks_db ["inetnum: 1.0.0.0 - 1.0.0.255"] "ripe" = [] ∧
    read_blocks_tsv ["inetnum: 1.0.0.0 - 1.0.0.255", ""] "ripe" =
      [["inetnum: 1.0.0.0 - 1.0.0.255", "cust_source: ripe"]] := by
  refine ⟨rfl, rfl, rfl, rfl, rfl⟩

/-- C7 counterexample: in create_tsv.py's segmenter a `remarks:` line is NOT
skipped — it is accumulated into the block's content (while create_db.py,
on the same stream, does skip it). -/
theorem c7_counterexample :
    read_blocks_tsv ["inetnum: 1.0.0.0 - 1.0.0.255", "remarks: internal note", ""] "ripe" =
      [["inetnum: 1.0.0.0 - 1.0.0.255", "remarks: internal note", "cust_source: ripe"]] ∧
    read_blocks_db ["inetnum: 1.0.0.0 - 1.0.0.255", "remarks: internal note", ""] "ripe" =
      [["inetnum: 1.0.0.0 - 1.0.0.255", "cust_source: ripe"]] := by
  exact ⟨rfl, rfl⟩

/-- C6 counterexample: a free-text block whose parsed data carries BOTH
`last-modified` (`2020-01-01`) and `changed` (`1999-12-31`) is emitted with
`last_modified = "1999-12-31"`: the `changed` value overwrites the
`last-modified` value, contradicting the claimed priority. -/
theorem c6_counterexample :
    parse_blocks_tsv
        (fun _ => .ok [("inetnum", RVal.one "10.0.0.0 - 10.0.0.1"),
                       ("last-modified", RVal.many ["2020-01-01"]),
                       ("changed", RVal.many ["1999-12-31"])])
        ip6Fail (TsvState.mk [] [])
        [["inetnum: 10.0.0.0 - 10.0.0.1", "cust_source: ripe"]] =
      .ok (TsvState.mk [] [Row.mk "10.0.0.0/31" "" "" "" "" "" "1999-12-31" "ripe"]) ∧
    "1999-12-31" ≠ "2020-01-01" := by
  exact ⟨rfl, by decide⟩

/-! ### Character and span facts used for the C8 shorthand-expansion claim -/

theorem digit_toNat {x : Char} (h : isDigitC x = true) : 48 ≤ x.toNat ∧ x.toNat ≤ 57 := by
  simpa [isDigitC, Bool.and_eq_true, decide_eq_true_eq] using h

theorem digit_beq_false {x c : Char} (h : isDigitC x = true)
    (hc : c.toNat < 48 ∨ 57 < c.toNat) : (x == c) = false := by
  have h' := digit_toNat h
  apply beq_eq_false_iff_ne.mpr
  intro hh
  subst hh
  omega

theorem not_ws_of_digit {x : Char} (h : isDigitC x = true) : isWsC x = false := by
  have h' := digit_toNat h
  simp only [isWsC, Bool.or_eq_false_iff, beq_eq_false_iff_ne, ne_eq]
  omega

theorem dotdigit_of_digit {x : Char} (h : isDigitC x = true) : isDotDigit x = true := by
  simp [isDotDigit, h]

theorem all_dotdigit {a : List Char} (h : a.all isDigitC = true) : a.all isDotDigit = true := by
  rw [List.all_eq_true] at h ⊢
  intro x hx
  exact dotdigit_of_digit (h x hx)

theorem not_ws_of_dotdigit {x : Char} (h : isDotDigit x = true) : isWsC x = false := by
  have h' : isDigitC x = true ∨ x.toNat = 46 := by simpa [isDotDigit] using h
  rcases h' with h1 | h1
  · exact not_ws_of_digit h1
  · simp only [isWsC, Bool.or_eq_false_iff, beq_eq_false_iff_ne, ne_eq]
    omega

theorem takeWhile_stop (q : Char → Bool) (xs : List Char) (c : Char) (ys : List Char)
    (h : xs.all q = true) (hc : q c = false) : ((xs ++ c :: ys).takeWhile q) = xs := by
  induction xs with
  | nil => simp [List.takeWhile_cons, hc]
  | cons x t ih =>
    rw [List.all_cons, Bool.and_eq_true] at h
    simp [List.takeWhile_cons, h.1, ih h.2]

theorem dropWhile_stop (q : Char → Bool) (xs : List Char) (c : Char) (ys : List Char)
    (h : xs.all q = true) (hc : q c = false) : ((xs ++ c :: ys).dropWhile q) = c :: ys := by
  induction xs with
  | nil => simp [List.dropWhile_cons, hc]
  | cons x t ih =>
    rw [List.all_cons, Bool.and_eq_true] at h
    simp [List.dropWhile_cons, h.1, ih h.2]

theorem takeWhile_all (q : Char → Bool) (xs : List Char) (h : xs.all q = true) :
    xs.takeWhile q = xs := by
  induction xs with
  | nil => rfl
  | cons x t ih =>
    rw [List.all_cons, Bool.and_eq_true] at h
    simp [List.takeWhile_cons, h.1, ih h.2]

theorem dropWhile_all (q : Char → Bool) (xs : List Char) (h : xs.all q = true) :
    xs.dropWhile q = [] := by
  induction xs with
  | nil => rfl
  | cons x t ih =>
    rw [List.all_cons, Bool.and_eq_true] at h
    simp [List.dropWhile_cons, h.1, ih h.2]

theorem dropPre_refl (xs ys : List Char) : dropPre? xs (xs ++ ys) = some ys := by
  induction xs with
  | nil => rfl
  | cons x t ih => simp [dropPre?, ih]

theorem splitBy_ne_nil (q : Char → Bool) (cs : List Char) : splitBy q cs ≠ [] := by
  cases cs with
  | nil => simp [splitBy]
  | cons c r =>
    unfold splitBy
    by_cases h : q c = true
    · simp [h]
    · rw [if_neg h]
      cases splitBy q r <;> simp

theorem splitBy_nosep (q : Char → Bool) (a : List Char) (h : ∀ x ∈ a, q x = false) :
    splitBy q a = [a] := by
  induction a with
  | nil => rfl
  | cons x t ih =>
    have hx := h x (List.mem_cons_self x t)
    have ht := ih (fun y hy => h y (List.mem_cons_of_mem x hy))
    simp [splitBy, hx, ht]

theorem splitBy_sep (q : Char → Bool) (a : List Char) (c : Char) (r : List Char)
    (h : ∀ x ∈ a, q x = false) (hc : q c = true) :
    splitBy q (a ++ c :: r) = a :: splitBy q r := by
  induction a with
  | nil => simp [splitBy, hc]
  | cons x t ih =>
    have hx := h x (List.mem_cons_self x t)
    have ht := ih (fun y hy => h y (List.mem_cons_of_mem x hy))
    simp only [List.cons_append, splitBy, hx, Bool.false_eq_true, if_false, List.append_eq, ht]

/-! ### C8: behaviour of the matchers on shorthand CIDR literals -/

/-- A valid regex octet: one to three digit characters. -/
def okOct (a : List Char) : Prop := a ≠ [] ∧ a.length ≤ 3 ∧ a.all isDigitC = true

/-- A valid regex prefix length: one or two digit characters. -/
def okPlen (p : List Char) : Prop := p ≠ [] ∧ p.length ≤ 2 ∧ p.all isDigitC = true

theorem okOct_facts {a : List Char} (h : okOct a) :
    (∀ x ∈ a, isDigitC x = true) ∧ 1 ≤ a.length := by
  refine ⟨fun x hx => (List.all_eq_true.mp h.2.2) x hx, ?_⟩
  have h1 := h.1
  cases a with
  | nil => exact absurd rfl h1
  | cons y t => simp

theorem pOctetDot_dot {a : List Char} (r : List Char) (h : okOct a) :
    pOctetDot (a ++ '.' :: r) = some (decValue a, r) := by
  have hlen : (1 ≤ a.length && a.length ≤ 3) = true := by
    simp only [Bool.and_eq_true, decide_eq_true_eq]
    exact ⟨(okOct_facts h).2, h.2.1⟩
  simp only [pOctetDot, spanP, takeWhile_stop isDigitC a '.' r h.2.2 (by decide),
    dropWhile_stop isDigitC a '.' r h.2.2 (by decide), hlen, if_true]

theorem pOctetDot_slash {a : List Char} (r : List Char) (h : okOct a) :
    pOctetDot (a ++ '/' :: r) = none := by
  have hlen : (1 ≤ a.length && a.length ≤ 3) = true := by
    simp only [Bool.and_eq_true, decide_eq_true_eq]
    exact ⟨(okOct_facts h).2, h.2.1⟩
  simp only [pOctetDot, spanP, takeWhile_stop isDigitC a '/' r h.2.2 (by decide),
    dropWhile_stop isDigitC a '/' r h.2.2 (by decide), hlen, if_true]
  rfl

theorem pOctetMid_slash {a : List Char} (r : List Char) (h : okOct a) :
    pOctetMid (a ++ '/' :: r) = some (decValue a, '/' :: r) := by
  have hlen : (1 ≤ a.length && a.length ≤ 3) = true := by
    simp only [Bool.and_eq_true, decide_eq_true_eq]
    exact ⟨(okOct_facts h).2, h.2.1⟩
  simp only [pOctetMid, spanP, takeWhile_stop isDigitC a '/' r h.2.2 (by decide),
    dropWhile_stop isDigitC a '/' r h.2.2 (by decide), hlen, if_true]

theorem pWs_space (tail : List Char) : pWs (' ' :: tail) = pWs tail := by
  simp [pWs, List.dropWhile_cons, show isWsC ' ' = true from rfl]

theorem pWs_no_ws {a : List Char} (r : List Char) (h : okOct a) : pWs (a ++ r) = a ++ r := by
  cases a with
  | nil => exact absurd rfl h.1
  | cons x t =>
    have hx : isDigitC x = true := (okOct_facts h).1 x (List.mem_cons_self x t)
    simp [pWs, List.dropWhile_cons, not_ws_of_digit hx]

theorem dropPre_inetnum (tail : List Char) :
    dropPre? "inetnum:".data ("inetnum: ".data ++ tail) = some (' ' :: tail) := by
  have h1 : "inetnum: ".data = "inetnum:".data ++ [' '] := rfl
  rw [h1, List.append_assoc]
  exact dropPre_refl _ _

theorem dropPre_inet6num (tail : List Char) :
    dropPre? "inet6num:".data ("inetnum: ".data ++ tail) = none := rfl

/-- The line `inetnum: A.B/P` does not match the IPv4 start-end pattern: the
second octet group is followed by `/`, not by a dot. -/
theorem matchRange_two {a b p : List Char} (ha : okOct a) (hb : okOct b) :
    matchInetnumRange (String.mk ("inetnum: ".data ++ (a ++ '.' :: (b ++ '/' :: p)))) = none := by
  simp [matchInetnumRange, dropPre?, pWs_space, pWs_no_ws _ ha, pIpPair, pIp4Mid,
    pOctetDot_dot _ ha, pOctetDot_slash _ hb]

/-- The line `inetnum: A.B.C/P` does not match the IPv4 start-end pattern. -/
theorem matchRange_three {a b c p : List Char} (ha : okOct a) (hb : okOct b) (hc : okOct c) :
    matchInetnumRange (String.mk
      ("inetnum: ".data ++ (a ++ '.' :: (b ++ '.' :: (c ++ '/' :: p))))) = none := by
  simp [matchInetnumRange, dropPre?, pWs_space, pWs_no_ws _ ha, pIpPair, pIp4Mid,
    pOctetDot_dot _ ha, pOctetDot_dot _ hb, pOctetDot_slash _ hc]

/-- The line `inetnum: A.B.C.D/P` does not match the IPv4 start-end pattern:
all four octets match but the required `-` is a `/`. -/
theorem matchRange_four {a b c d p : List Char}
    (ha : okOct a) (hb : okOct b) (hc : okOct c) (hd : okOct d) :
    matchInetnumRange (String.mk
      ("inetnum: ".data ++ (a ++ '.' :: (b ++ '.' :: (c ++ '.' :: (d ++ '/' :: p)))))) = none := by
  have hslash : pWs ('/' :: p) = '/' :: p := by
    simp [pWs, List.dropWhile_cons, show isWsC '/' = false from rfl]
  simp [matchInetnumRange, dropPre?, pWs_space, pWs_no_ws _ ha, pIpPair, pIp4Mid,
    pOctetDot_dot _ ha, pOctetDot_dot _ hb, pOctetDot_dot _ hc, pOctetMid_slash _ hd, hslash]

theorem matchInet6num_inetnum (tail : List Char) :
    matchInet6num (String.mk ("inetnum: ".data ++ tail)) = none := by
  unfold matchInet6num
  rw [show (String.mk ("inetnum: ".data ++ tail)).data = "inetnum: ".data ++ tail from rfl]
  rw [dropPre_inet6num]

/-- `matchLacnic` on `inetnum: <run>/<p>` where `run` is a dotted digit run
whose dot-split groups satisfy the 2-to-4-octets shape. -/
theorem matchLacnic_run (run p : List Char) (hrun : run.all isDotDigit = true)
    (hne : run ≠ []) (hh : ∀ x ∈ run, isWsC x = false)
    (h2 : 2 ≤ (splitBy (fun c => c == '.') run).length)
    (h4 : (splitBy (fun c => c == '.') run).length ≤ 4)
    (hall : ((splitBy (fun c => c == '.') run).all
      (fun q => 1 ≤ q.length && q.length ≤ 3)) = true)
    (hp : okPlen p) :
    matchLacnic (String.mk ("inetnum: ".data ++ (run ++ '/' :: p))) =
      some (String.mk (run ++ '/' :: p)) := by
  have hpws : pWs (run ++ '/' :: p) = run ++ '/' :: p := by
    cases run with
    | nil => exact absurd rfl hne
    | cons x t =>
      simp [pWs, List.dropWhile_cons, hh x (List.mem_cons_self x t)]
  have hp1 : 1 ≤ p.length := by
    cases p with
    | nil => exact absurd rfl hp.1
    | cons y t => simp
  have htake : p.take 2 = p := List.take_of_length_le hp.2.1
  simp [matchLacnic, dropPre?, pWs_space, hpws, spanP,
    takeWhile_stop isDotDigit run '/' p hrun (by decide),
    dropWhile_stop isDotDigit run '/' p hrun (by decide),
    takeWhile_all isDigitC p hp.2.2, dropWhile_all isDigitC p hp.2.2,
    h2, h4, hall, hp1, htake]

theorem count_zero_digits {l : List Char} (h : l.all isDigitC = true) : l.count '.' = 0 := by
  rw [List.count_eq_zero]
  intro hmem
  exact absurd ((List.all_eq_true.mp h) '.' hmem) (by decide)

theorem bne_slash_of_digit {x : Char} (h : isDigitC x = true) : (x != '/') = true := by
  have hb := @digit_beq_false x '/' h (Or.inl (by decide))
  simp [bne, hb]

theorem all_ne_slash {l : List Char} (h : l.all isDotDigit = true) :
    (l.all (fun c => c != '/')) = true := by
  rw [List.all_eq_true] at h ⊢
  intro x hx
  have hd : isDigitC x = true ∨ x.toNat = 46 := by simpa [isDotDigit] using h x hx
  rcases hd with h1 | h1
  · exact bne_slash_of_digit h1
  · simp only [bne_iff_ne, ne_eq]
    intro hh
    subst hh
    exact absurd h1 (by decide)

theorem mem_append_digit_dot {a b : List Char} (ha : okOct a) (hb : okOct b) :
    (a ++ '.' :: b).all isDotDigit = true := by
  rw [List.all_eq_true]
  intro x hx
  rcases List.mem_append.mp hx with hx | hx
  · exact dotdigit_of_digit ((okOct_facts ha).1 x hx)
  · rcases List.mem_cons.mp hx with rfl | hx
    · decide
    · exact dotdigit_of_digit ((okOct_facts hb).1 x hx)

theorem no_dot_of_digits {a : List Char} (ha : okOct a) :
    ∀ x ∈ a, (x == '.') = false := fun x hx =>
  @digit_beq_false x '.' ((okOct_facts ha).1 x hx) (Or.inl (by decide))

/-- Shorthand expansion of a two-octet capture `A.B/P`. -/
theorem lacnicExpand_two {a b p : List Char} (ha : okOct a) (hb : okOct b) (hp : okPlen p) :
    lacnicExpand (String.mk ((a ++ '.' :: b) ++ '/' :: p)) =
      String.mk (a ++ '.' :: b ++ ".0.0".data ++ '/' :: p) := by
  have hrun := mem_append_digit_dot ha hb
  have hform : a ++ '.' :: (b ++ '/' :: p) = (a ++ '.' :: b) ++ '/' :: p := by simp
  have htake : (a ++ '.' :: (b ++ '/' :: p)).takeWhile (fun c => c != '/') = a ++ '.' :: b := by
    rw [hform]
    exact takeWhile_stop (fun c => c != '/') (a ++ '.' :: b) '/' p (all_ne_slash hrun) (by decide)
  have hdrop : (a ++ '.' :: (b ++ '/' :: p)).dropWhile (fun c => c != '/') = '/' :: p := by
    rw [hform]
    exact dropWhile_stop (fun c => c != '/') (a ++ '.' :: b) '/' p (all_ne_slash hrun) (by decide)
  simp [lacnicExpand, List.count_append, List.count_cons, count_zero_digits ha.2.2,
    count_zero_digits hb.2.2, count_zero_digits hp.2.2, htake, hdrop]

/-- The LACNIC matcher on the two-octet line `inetnum: A.B/P`. -/
theorem matchLacnic_two {a b p : List Char} (ha : okOct a) (hb : okOct b) (hp : okPlen p) :
    matchLacnic (String.mk ("inetnum: ".data ++ (a ++ '.' :: (b ++ '/' :: p)))) =
      some (String.mk ((a ++ '.' :: b) ++ '/' :: p)) := by
  have hform : (a ++ '.' :: b) ++ '/' :: p = a ++ '.' :: (b ++ '/' :: p) := by simp
  have hrun := mem_append_digit_dot ha hb
  have hsplit : splitBy (fun c => c == '.') (a ++ '.' :: b) = [a, b] := by
    rw [splitBy_sep _ a '.' b (no_dot_of_digits ha) (by decide),
      splitBy_nosep _ b (no_dot_of_digits hb)]
  have hne : a ++ '.' :: b ≠ [] := by cases a <;> simp
  have hh : ∀ x ∈ a ++ '.' :: b, isWsC x = false := fun x hx =>
    not_ws_of_dotdigit ((List.all_eq_true.mp hrun) x hx)
  have hall : ((splitBy (fun c => c == '.') (a ++ '.' :: b)).all
      (fun q => 1 ≤ q.length && q.length ≤ 3)) = true := by
    rw [hsplit]
    simp only [List.all_cons, List.all_nil, Bool.and_eq_true, decide_eq_true_eq, Bool.and_true]
    exact ⟨⟨(okOct_facts ha).2, ha.2.1⟩, (okOct_facts hb).2, hb.2.1⟩
  have hlac := matchLacnic_run (a ++ '.' :: b) p hrun hne hh
    (by rw [hsplit]; simp) (by rw [hsplit]; simp) hall hp
  nth_rewrite 1 [hform] at hlac
  exact hlac

theorem all_dotdigit_append {l1 l2 : List Char} (h1 : l1.all isDotDigit = true)
    (h2 : l2.all isDotDigit = true) : (l1 ++ l2).all isDotDigit = true := by
  simp [List.all_append, h1, h2]

theorem all_dotdigit_dotcons {l : List Char} (h : l.all isDotDigit = true) :
    ('.' :: l).all isDotDigit = true := by
  simp [List.all_cons, h, show isDotDigit '.' = true by decide]

/-- Shorthand expansion of a three-octet capture `A.B.C/P`. -/
theorem lacnicExpand_three {a b c p : List Char}
    (ha : okOct a) (hb : okOct b) (hc : okOct c) (hp : okPlen p) :
    lacnicExpand (String.mk ((a ++ '.' :: (b ++ '.' :: c)) ++ '/' :: p)) =
      String.mk (a ++ '.' :: (b ++ '.' :: c) ++ ".0".data ++ '/' :: p) := by
  have hrun : (a ++ '.' :: (b ++ '.' :: c)).all isDotDigit = true :=
    all_dotdigit_append (all_dotdigit ha.2.2)
      (all_dotdigit_dotcons (all_dotdigit_append (all_dotdigit hb.2.2)
        (all_dotdigit_dotcons (all_dotdigit hc.2.2))))
  have hform : a ++ '.' :: (b ++ '.' :: (c ++ '/' :: p)) =
      (a ++ '.' :: (b ++ '.' :: c)) ++ '/' :: p := by simp
  have htake : (a ++ '.' :: (b ++ '.' :: (c ++ '/' :: p))).takeWhile (fun x => x != '/') =
      a ++ '.' :: (b ++ '.' :: c) := by
    rw [hform]
    exact takeWhile_stop _ _ '/' p (all_ne_slash hrun) (by decide)
  have hdrop : (a ++ '.' :: (b ++ '.' :: (c ++ '/' :: p))).dropWhile (fun x => x != '/') =
      '/' :: p := by
    rw [hform]
    exact dropWhile_stop _ _ '/' p (all_ne_slash hrun) (by decide)
  simp [lacnicExpand, List.count_append, List.count_cons, count_zero_digits ha.2.2,
    count_zero_digits hb.2.2, count_zero_digits hc.2.2, count_zero_digits hp.2.2, htake, hdrop]

/-- A four-octet capture `A.B.C.D/P` is left unchanged (three dots). -/
theorem lacnicExpand_four {a b c d p : List Char}
    (ha : okOct a) (hb : okOct b) (hc : okOct c) (hd : okOct d) (hp : okPlen p) :
    lacnicExpand (String.mk ((a ++ '.' :: (b ++ '.' :: (c ++ '.' :: d))) ++ '/' :: p)) =
      String.mk ((a ++ '.' :: (b ++ '.' :: (c ++ '.' :: d))) ++ '/' :: p) := by
  simp [lacnicExpand, List.count_append, List.count_cons, count_zero_digits ha.2.2,
    count_zero_digits hb.2.2, count_zero_digits hc.2.2, count_zero_digits hd.2.2,
    count_zero_digits hp.2.2]

/-- The LACNIC matcher on the three-octet line `inetnum: A.B.C/P`. -/
theorem matchLacnic_three {a b c p : List Char}
    (ha : okOct a) (hb : okOct b) (hc : okOct c) (hp : okPlen p) :
    matchLacnic (String.mk ("inetnum: ".data ++ (a ++ '.' :: (b ++ '.' :: (c ++ '/' :: p))))) =
      some (String.mk ((a ++ '.' :: (b ++ '.' :: c)) ++ '/' :: p)) := by
  have hform : (a ++ '.' :: (b ++ '.' :: c)) ++ '/' :: p =
      a ++ '.' :: (b ++ '.' :: (c ++ '/' :: p)) := by simp
  have hrun : (a ++ '.' :: (b ++ '.' :: c)).all isDotDigit = true :=
    all_dotdigit_append (all_dotdigit ha.2.2)
      (all_dotdigit_dotcons (all_dotdigit_append (all_dotdigit hb.2.2)
        (all_dotdigit_dotcons (all_dotdigit hc.2.2))))
  have hsplit : splitBy (fun x => x == '.') (a ++ '.' :: (b ++ '.' :: c)) = [a, b, c] := by
    rw [splitBy_sep _ a '.' (b ++ '.' :: c) (no_dot_of_digits ha) (by decide),
      splitBy_sep _ b '.' c (no_dot_of_digits hb) (by decide),
      splitBy_nosep _ c (no_dot_of_digits hc)]
  have hne : a ++ '.' :: (b ++ '.' :: c) ≠ [] := by cases a <;> simp
  have hh : ∀ x ∈ a ++ '.' :: (b ++ '.' :: c), isWsC x = false := fun x hx =>
    not_ws_of_dotdigit ((List.all_eq_true.mp hrun) x hx)
  have hall : ((splitBy (fun x => x == '.') (a ++ '.' :: (b ++ '.' :: c))).all
      (fun q => 1 ≤ q.length && q.length ≤ 3)) = true := by
    rw [hsplit]
    simp only [List.all_cons, List.all_nil, Bool.and_eq_true, decide_eq_true_eq, Bool.and_true]
    exact ⟨⟨(okOct_facts ha).2, ha.2.1⟩, ⟨(okOct_facts hb).2, hb.2.1⟩,
      (okOct_facts hc).2, hc.2.1⟩
  have hlac := matchLacnic_run (a ++ '.' :: (b ++ '.' :: c)) p hrun hne hh
    (by rw [hsplit]; simp) (by rw [hsplit]; simp) hall hp
  nth_rewrite 1 [hform] at hlac
  exact hlac

/-- The LACNIC matcher on the four-octet line `inetnum: A.B.C.D/P`. -/
theorem matchLacnic_four {a b c d p : List Char}
    (ha : okOct a) (hb : okOct b) (hc : okOct c) (hd : okOct d) (hp : okPlen p) :
    matchLacnic (String.mk
      ("inetnum: ".data ++ (a ++ '.' :: (b ++ '.' :: (c ++ '.' :: (d ++ '/' :: p)))))) =
      some (String.mk ((a ++ '.' :: (b ++ '.' :: (c ++ '.' :: d))) ++ '/' :: p)) := by
  have hform : (a ++ '.' :: (b ++ '.' :: (c ++ '.' :: d))) ++ '/' :: p =
      a ++ '.' :: (b ++ '.' :: (c ++ '.' :: (d ++ '/' :: p))) := by simp
  have hrun : (a ++ '.' :: (b ++ '.' :: (c ++ '.' :: d))).all isDotDigit = true :=
    all_dotdigit_append (all_dotdigit ha.2.2)
      (all_dotdigit_dotcons (all_dotdigit_append (all_dotdigit hb.2.2)
        (all_dotdigit_dotcons (all_dotdigit_append (all_dotdigit hc.2.2)
          (all_dotdigit_dotcons (all_dotdigit hd.2.2))))))
  have hsplit : splitBy (fun x => x == '.') (a ++ '.' :: (b ++ '.' :: (c ++ '.' :: d))) =
      [a, b, c, d] := by
    rw [splitBy_sep _ a '.' (b ++ '.' :: (c ++ '.' :: d)) (no_dot_of_digits ha) (by decide),
      splitBy_sep _ b '.' (c ++ '.' :: d) (no_dot_of_digits hb) (by decide),
      splitBy_sep _ c '.' d (no_dot_of_digits hc) (by decide),
      splitBy_nosep _ d (no_dot_of_digits hd)]
  have hne : a ++ '.' :: (b ++ '.' :: (c ++ '.' :: d)) ≠ [] := by cases a <;> simp
  have hh : ∀ x ∈ a ++ '.' :: (b ++ '.' :: (c ++ '.' :: d)), isWsC x = false := fun x hx =>
    not_ws_of_dotdigit ((List.all_eq_true.mp hrun) x hx)
  have hall : ((splitBy (fun x => x == '.') (a ++ '.' :: (b ++ '.' :: (c ++ '.' :: d)))).all
      (fun q => 1 ≤ q.length && q.length ≤ 3)) = true := by
    rw [hsplit]
    simp only [List.all_cons, List.all_nil, Bool.and_eq_true, decide_eq_true_eq, Bool.and_true]
    exact ⟨⟨(okOct_facts ha).2, ha.2.1⟩, ⟨(okOct_facts hb).2, hb.2.1⟩,
      ⟨(okOct_facts hc).2, hc.2.1⟩, (okOct_facts hd).2, hd.2.1⟩
  have hlac := matchLacnic_run (a ++ '.' :: (b ++ '.' :: (c ++ '.' :: d))) p hrun hne hh
    (by rw [hsplit]; simp) (by rw [hsplit]; simp) hall hp
  nth_rewrite 1 [hform] at hlac
  exact hlac

/-- `parse_property_inetnum` on a one-line block that only the LACNIC
pattern matches. -/
theorem ppi_single (l : String) (cap : String)
    (h1 : matchInetnumRange l = none) (h2 : matchInet6num l = none)
    (h3 : matchLacnic l = some cap) :
    parse_property_inetnum [l] = .ok (some (.txt (lacnicExpand cap))) := by
  simp [parse_property_inetnum, List.findSome?, h1, h2, h3]

/-- C8: truncated-octet shorthand reconstruction in create_db.py's range
normalizer, for arbitrary octet digit groups `a`, `b`, `c`, `d` (one to
three digits each) and prefix length `p` (one or two digits): `A.B/P` gains
`.0.0`, `A.B.C/P` gains `.0`, and a complete `A.B.C.D/P` is returned
unchanged. -/
theorem c8_theorem (a b c d p : List Char)
    (ha : okOct a) (hb : okOct b) (hc : okOct c) (hd : okOct d) (hp : okPlen p) :
    parse_property_inetnum [String.mk ("inetnum: ".data ++ (a ++ '.' :: (b ++ '/' :: p)))] =
      .ok (some (.txt (String.mk (a ++ '.' :: b ++ ".0.0".data ++ '/' :: p)))) ∧
    parse_property_inetnum
        [String.mk ("inetnum: ".data ++ (a ++ '.' :: (b ++ '.' :: (c ++ '/' :: p))))] =
      .ok (some (.txt (String.mk (a ++ '.' :: (b ++ '.' :: c) ++ ".0".data ++ '/' :: p)))) ∧
    parse_property_inetnum
        [String.mk ("inetnum: ".data ++ (a ++ '.' :: (b ++ '.' :: (c ++ '.' :: (d ++ '/' :: p)))))] =
      .ok (some (.txt (String.mk ((a ++ '.' :: (b ++ '.' :: (c ++ '.' :: d))) ++ '/' :: p)))) := by
  refine ⟨?_, ?_, ?_⟩
  · rw [ppi_single _ _ (matchRange_two ha hb) (matchInet6num_inetnum _)
      (matchLacnic_two ha hb hp), lacnicExpand_two ha hb hp]
  · rw [ppi_single _ _ (matchRange_three ha hb hc) (matchInet6num_inetnum _)
      (matchLacnic_three ha hb hc hp), lacnicExpand_three ha hb hc hp]
  · rw [ppi_single _ _ (matchRange_four ha hb hc hd) (matchInet6num_inetnum _)
      (matchLacnic_four ha hb hc hd hp), lacnicExpand_four ha hb hc hd hp]

theorem c8_witness :
    (okOct ['1'] ∧ okPlen ['1', '6'] ∧
      parse_property_inetnum ["inetnum: 1.0/16"] = .ok (some (.txt "1.0.0.0/16"))) ∧
    parse_property_inetnum ["inetnum: 1.0.0/24"] = .ok (some (.txt "1.0.0.0/24")) ∧
    parse_property_inetnum ["inetnum: 1.0.0.0/8"] = .ok (some (.txt "1.0.0.0/8")) := by
  have hok1 : okOct ['1'] := ⟨by decide, by decide, by decide⟩
  have hok0 : okOct ['0'] := ⟨by decide, by decide, by decide⟩
  have hp16 : okPlen ['1', '6'] := ⟨by decide, by decide, by decide⟩
  have hp24 : okPlen ['2', '4'] := ⟨by decide, by decide, by decide⟩
  have hp8 : okPlen ['8'] := ⟨by decide, by decide, by decide⟩
  exact ⟨⟨hok1, hp16, ( c8_theorem ['1'] ['0'] ['0'] ['0'] ['1', '6'] hok1 hok0 hok0 hok0 hp16).1⟩,
    ( c8_theorem ['1'] ['0'] ['0'] ['0'] ['2', '4'] hok1 hok0 hok0 hok0 hp24).2.1,
    ( c8_theorem ['1'] ['0'] ['0'] ['0'] ['8'] hok1 hok0 hok0 hok0 hp8).2.2⟩

/-! ### C7: comment filtering in the segmenters -/

theorem segStep_comment (isCmt : String → Bool) (isStart : List String → Bool)
    (tag : String) (st : SegState) (l : String) (h : isCmt l = true) :
    segStep isCmt isStart tag st l = st := by
  simp [segStep, h]

theorem read_blocks_gen_comment (isCmt : String → Bool) (isStart : List String → Bool)
    (tag : String) (pre post : List String) (l : String) (h : isCmt l = true) :
    read_blocks_gen isCmt isStart tag (pre ++ l :: post) =
      read_blocks_gen isCmt isStart tag (pre ++ post) := by
  unfold read_blocks_gen
  rw [List.foldl_append, List.foldl_append, List.foldl_cons,
    segStep_comment isCmt isStart tag _ l h]

/-- C7 (amended): every line beginning with `%` or `#` is skipped entirely by
both segmenters (it contributes nothing and does not end a block), and a line
beginning with `remarks:` is additionally skipped — but only by the
create_db.py segmenter; create_tsv.py accumulates `remarks:` lines. -/
theorem c7_theorem (pre post : List String) (tag : String) (l : String) :
    (commentTsv l = true →
      read_blocks_tsv (pre ++ l :: post) tag = read_blocks_tsv (pre ++ post) tag) ∧
    (commentDb l = true →
      read_blocks_db (pre ++ l :: post) tag = read_blocks_db (pre ++ post) tag) := by
  constructor
  · intro h
    exact read_blocks_gen_comment commentTsv startTsv tag pre post l h
  · intro h
    exact read_blocks_gen_comment commentDb startDb tag pre post l h

theorem c7_witness :
    commentDb "remarks: internal note" = true ∧
    read_blocks_db
        (["inetnum: 1.0.0.0 - 1.0.0.255"] ++ "remarks: internal note" :: [""]) "ripe" =
      read_blocks_db (["inetnum: 1.0.0.0 - 1.0.0.255"] ++ [""]) "ripe" :=
  ⟨by decide, ( c7_theorem ["inetnum: 1.0.0.0 - 1.0.0.255"] [""] "ripe"
    "remarks: internal note").2 (by decide)⟩

/-! ### C10: shape invariant of the emitted blocks -/

/-- The invariant claimed for every emitted block: non-empty, its first line
satisfies the start predicate, its final line is the synthetic source
attribute. -/
def goodBlock (isStart : List String → Bool) (tag : String) (b : List String) : Prop :=
  b ≠ [] ∧ isStart b = true ∧ b.getLast? = some ("cust_source: " ++ tag)

theorem firstLine_concat (acc : List String) (x : String) (h : acc ≠ []) :
    firstLine (acc ++ [x]) = firstLine acc := by
  cases acc with
  | nil => exact absurd rfl h
  | cons a t => simp [firstLine]

theorem segSteps_good (isCmt : String → Bool) (isStart : List String → Bool) (tag : String)
    (hnil : isStart [] = false)
    (hext : ∀ (acc : List String) (x : String), acc ≠ [] → isStart (acc ++ [x]) = isStart acc) :
    ∀ (lines : List String) (st : SegState),
      (∀ b ∈ st.blocks, goodBlock isStart tag b) →
      ∀ b ∈ (lines.foldl (segStep isCmt isStart tag) st).blocks, goodBlock isStart tag b := by
  intro lines
  induction lines with
  | nil => intro st h; simpa using h
  | cons l t ih =>
    intro st h
    rw [List.foldl_cons]
    apply ih
    intro b hb
    unfold segStep at hb
    by_cases h1 : isCmt l = true
    · rw [if_pos h1] at hb
      exact h b hb
    · rw [if_neg h1] at hb
      by_cases h2 : isBlank l = true
      · rw [if_pos h2] at hb
        by_cases h3 : isStart st.acc = true
        · rw [if_pos h3] at hb
          simp only at hb
          rcases List.mem_append.mp hb with hb | hb
          · exact h b hb
          · have hbe : b = st.acc ++ ["cust_source: " ++ tag] := by simpa using hb
            subst hbe
            have haccne : st.acc ≠ [] := by
              intro hh
              rw [hh, hnil] at h3
              exact absurd h3 (by simp)
            refine ⟨by simp, ?_, ?_⟩
            · rw [hext _ _ haccne]
              exact h3
            · exact List.getLast?_concat _
        · rw [if_neg h3] at hb
          exact h b hb
      · rw [if_neg h2] at hb
        exact h b hb

/-- C10: every block returned by `read_blocks` is non-empty, starts with a
recognised start marker (the create_tsv.py set resp. the create_db.py set, as
tested on its first line), and ends with the synthetic `cust_source: <tag>`
line; accumulated text failing the start predicate is never emitted. -/
theorem c10_theorem (lines : List String) (tag : String) (b : List String) :
    (b ∈ read_blocks_tsv lines tag → goodBlock startTsv tag b) ∧
    (b ∈ read_blocks_db lines tag → goodBlock startDb tag b) := by
  constructor
  · intro hb
    refine segSteps_good commentTsv startTsv tag ?_ ?_ lines (SegState.mk [] [])
      (by intro b hb'; simp at hb') b hb
    · decide
    · intro acc x h
      simp [startTsv, isRpslStart, isArinStart, firstLine_concat acc x h]
  · intro hb
    refine segSteps_good commentDb startDb tag ?_ ?_ lines (SegState.mk [] [])
      (by intro b hb'; simp at hb') b hb
    · decide
    · intro acc x h
      simp [startDb, firstLine_concat acc x h]

theorem c10_witness :
    (["inetnum: 1.2.3.4 - 1.2.3.5", "cust_source: ripe"] ∈
      read_blocks_tsv ["person: somebody", "", "inetnum: 1.2.3.4 - 1.2.3.5", ""] "ripe") ∧
    goodBlock startTsv "ripe" ["inetnum: 1.2.3.4 - 1.2.3.5", "cust_source: ripe"] :=
  ⟨by decide,
    ( c10_theorem ["person: somebody", "", "inetnum: 1.2.3.4 - 1.2.3.5", ""] "ripe"
      ["inetnum: 1.2.3.4 - 1.2.3.5", "cust_source: ripe"]).1 (by decide)⟩

/-! ### C9: the `ARIN_ORGS` reset in the driver -/

theorem except_map_ok {α β : Type} (f : α → β) (r : Except String α) (y : β)
    (h : r.map f = .ok y) : ∃ x, r = .ok x ∧ y = f x := by
  cases r with
  | ok x =>
    refine ⟨x, rfl, ?_⟩
    simpa [Except.map] using h.symm
  | error e => simp [Except.map] at h

/-- C9: whenever the driver iteration for `arin_db.txt` — the single file
that populates the Organization Resolver, and the first FILELIST entry —
completes without crashing, the resulting `ARIN_ORGS` table is empty, and
`main` processes every other file strictly afterwards, starting from that
emptied table; so an OrgID seen later can never resolve to an entry
registered while processing `arin_db.txt`. -/
theorem c9_theorem (rpsl : List String → Except String RpslData)
    (ip6 : String → String → Except String (List String))
    (readFile : String → Option (List String)) (st st' : TsvState)
    (h : stepFile rpsl ip6 readFile st "arin_db.txt" = .ok st') :
    st'.orgs = [] ∧
    mainTsv rpsl ip6 readFile =
      (stepFile rpsl ip6 readFile (TsvState.mk [] []) "arin_db.txt") >>=
        (fun s1 => (FILELIST.drop 1).foldlM (stepFile rpsl ip6 readFile) s1) := by
  constructor
  · simp only [stepFile] at h
    obtain ⟨x, _, hy⟩ := except_map_ok _ _ _ h
    subst hy
    rfl
  · rfl

theorem c9_witness :
    stepFile rpslFail ip6Fail (fun _ => none)
        (TsvState.mk [(some "ORG-X", some "Stale Org", some "ZZ")] []) "arin_db.txt" =
      .ok (TsvState.mk [] []) ∧
    (TsvState.mk ([] : Orgs) ([] : List Row)).orgs = [] :=
  ⟨by rfl,
    (c9_theorem rpslFail ip6Fail (fun _ => none)
      (TsvState.mk [(some "ORG-X", some "Stale Org", some "ZZ")] [])
      (TsvState.mk [] []) (by rfl)).1⟩

/-! ### C6: `last-modified` versus `changed` -/

theorem stepNetname_lm (pd : RpslData) (v : TsvVars) :
    (stepNetname pd v).last_modified = v.last_modified := by
  unfold stepNetname
  cases rget pd "netname" <;> rfl

theorem stepDescr_lm (pd : RpslData) (v : TsvVars) :
    (stepDescr pd v).last_modified = v.last_modified := by
  unfold stepDescr
  cases rget pd "descr" <;> rfl

theorem stepCountry_lm (pd : RpslData) (v : TsvVars) :
    (stepCountry pd v).last_modified = v.last_modified := by
  unfold stepCountry
  cases rget pd "country" <;> rfl

theorem stepMnt_lm (pd : RpslData) (v : TsvVars) :
    (stepMnt pd v).last_modified = v.last_modified := by
  unfold stepMnt
  cases rget pd "mnt-by" <;> rfl

theorem stepCreated_lm (pd : RpslData) (v : TsvVars) :
    (stepCreated pd v).last_modified = v.last_modified := by
  unfold stepCreated
  cases rget pd "created" <;> rfl

theorem stepSource_lm (pd : RpslData) (b : List String) (v : TsvVars) :
    (stepSource pd b v).last_modified = v.last_modified := by
  unfold stepSource
  cases rget pd "source" <;> rfl

theorem rpslHead_lm (pd : RpslData) : (rpslHead pd).last_modified = some "" := by
  unfold rpslHead
  cases rget pd "inetnum" <;> cases rget pd "inet6num" <;> cases rget pd "route" <;>
    cases rget pd "route6" <;> cases rget pd "route-set" <;> cases rget pd "members" <;> rfl

/-- What the source's two sequential `if` statements compute for the
`last_modified` variable. -/
theorem lm_of_branch (pd : RpslData) (b : List String) :
    (rpslBranch pd b).last_modified =
      (match rget pd "changed" with
       | some x => some (pyJoinSpace x)
       | none =>
         match rget pd "last-modified" with
         | some y => some (pyJoinSpace y)
         | none => some "") := by
  unfold rpslBranch
  rw [stepSource_lm, stepCreated_lm]
  unfold stepChanged stepLastModified
  cases rget pd "changed" <;> cases rget pd "last-modified" <;>
    simp [stepNetname_lm, stepDescr_lm, stepCountry_lm, stepMnt_lm, rpslHead_lm]

/-- C6 (amended): for a free-text block, the emitted `last_modified` equals
the `changed` value whenever `changed` is present in the parsed data — even
when `last-modified` is also present; the `last-modified` value is emitted
only when `changed` is absent. -/
theorem c6_theorem (pd : RpslData) (b : List String) (x : RVal) :
    (rget pd "changed" = some x →
      (rpslBranch pd b).last_modified = some (pyJoinSpace x)) ∧
    (rget pd "changed" = none → rget pd "last-modified" = some x →
      (rpslBranch pd b).last_modified = some (pyJoinSpace x)) := by
  constructor
  · intro h
    rw [lm_of_branch, h]
  · intro h1 h2
    rw [lm_of_branch, h1, h2]

theorem c6_witness :
    rget [("changed", RVal.many ["1999-12-31"])] "changed" = some (RVal.many ["1999-12-31"]) ∧
    (rpslBranch [("changed", RVal.many ["1999-12-31"])] []).last_modified =
      some (pyJoinSpace (RVal.many ["1999-12-31"])) :=
  ⟨by rfl, (c6_theorem [("changed", RVal.many ["1999-12-31"])] []
    (RVal.many ["1999-12-31"])).1 (by rfl)⟩

/-- C1 counterexample: `range_to_cidr` — the normalizer used on every
free-text (RPSL) record of create_tsv.py — keeps only the FIRST block of
`iprange_to_cidrs`.  For the pair `10.0.0.0 - 10.0.0.2` the minimal covering
set is `[10.0.0.0/31, 10.0.2/32]`, yet the block fan-out produces a single
row `10.0.0.0/31`, whose block does not contain the in-range address
`10.0.0.2`; the union of the returned blocks is not `[start, end]` and there
is no row for the second CIDR of the set. -/
theorem c1_counterexample :
    iprangeToCidrs 167772160 167772162 = [Cidr.mk 167772160 31, Cidr.mk 167772162 32] ∧
    range_to_cidr "10.0.0.0 - 10.0.0.2" = .ok "10.0.0.0/31" ∧
    coversB (Cidr.mk 167772160 31) 167772162 = false ∧
    parse_blocks_tsv
        (fun _ => .ok [("inetnum", RVal.one "10.0.0.0 - 10.0.0.2"), ("source", RVal.one "RIPE")])
        ip6Fail (TsvState.mk [] [])
        [["inetnum: 10.0.0.0 - 10.0.0.2", "cust_source: ripe"]] =
      .ok (TsvState.mk [] [Row.mk "10.0.0.0/31" "" "" "" "" "" "" "RIPE"]) := by
  refine ⟨by decide, rfl, by decide, rfl⟩

/-- C1 (amended): for every IPv4 start-end pair with `end >= start` given to
`iprange_to_cidrs` (the path taken by `parse_arin_inetnum` and by
create_db.py's `parse_property_inetnum`), the returned CIDR blocks are
pairwise non-overlapping, aligned to their prefix boundaries, and their
union is exactly the integer range `[start, end]`; the record builders emit
exactly one output row per CIDR of that list (shown generally for
create_db.py and at a two-block ARIN instance for create_tsv.py).  However —
see the counterexample — create_tsv.py's `range_to_cidr` keeps only the
first block of the set, so the free-text path emits a single row that need
not cover an unaligned range. -/
theorem c1_theorem :
    (∀ s e : Nat, s ≤ e →
      (∀ n, ((iprangeToCidrs s e).any (fun c => coversB c n)) = true ↔ s ≤ n ∧ n ≤ e) ∧
      (iprangeToCidrs s e).Pairwise disjB ∧
      (∀ c ∈ iprangeToCidrs s e, c.plen ≤ 32 ∧ c.addr % 2 ^ (32 - c.plen) = 0)) ∧
    (∀ (b : List String) (cs : List Cidr),
      parse_property_inetnum b = .ok (some (.cidrs cs)) →
      dbRows b = .ok (cs.map (fun c =>
        Row.mk (cidrToStr c) (pyStr (parse_property b "netname"))
          (pyStr (parse_property b "descr")) (pyStr (parse_property b "country"))
          (pyStr (parse_property b "mnt-by")) (pyStr (parse_property b "created"))
          (pyStr (parse_property b "last-modified")) (pyStr (parse_property b "cust_source"))))) ∧
    parse_blocks_tsv rpslFail ip6Fail (TsvState.mk [(some "ORG-A", some "Acme", some "US")] [])
        [["NetHandle: NET-10", "NetRange: 10.0.0.0 - 10.0.2.255",
          "OrgID: ORG-A", "cust_source: arin"]] =
      .ok (TsvState.mk [(some "ORG-A", some "Acme", some "US")]
        [Row.mk "10.0.0.0/23" "" "NET-10" "US" "Acme" "" "" "arin",
         Row.mk "10.0.2.0/24" "" "NET-10" "US" "Acme" "" "" "arin"]) := by
  refine ⟨?_, ?_, by rfl⟩
  · intro s e hse
    exact ⟨fun n => iprangeToCidrs_covers s e n, iprangeToCidrs_disjoint s e,
      iprangeToCidrs_aligned s e⟩
  · intro b cs h
    simp only [dbRows, h]
    rfl

theorem c1_witness :
    ((3232235520 ≤ 3232236031 ∧
      (((iprangeToCidrs 3232235520 3232236031).any (fun c => coversB c 3232235600)) = true ↔
        3232235520 ≤ 3232235600 ∧ 3232235600 ≤ 3232236031)) ∧
      iprangeToCidrs 3232235520 3232236031 = [Cidr.mk 3232235520 23]) ∧
    (parse_property_inetnum ["inetnum: 10.0.0.0 - 10.0.2.255", "cust_source: ripe"] =
        .ok (some (.cidrs [Cidr.mk 167772160 23, Cidr.mk 167772672 24])) ∧
      dbRows ["inetnum: 10.0.0.0 - 10.0.2.255", "cust_source: ripe"] =
        .ok [Row.mk "10.0.0.0/23" "" "" "" "" "" "" "ripe",
             Row.mk "10.0.2.0/24" "" "" "" "" "" "" "ripe"]) :=
  ⟨⟨⟨by decide, (c1_theorem.1 3232235520 3232236031 (by decide)).1 3232235600⟩, by decide⟩,
   ⟨by rfl,
    c1_theorem.2.1 ["inetnum: 10.0.0.0 - 10.0.2.255", "cust_source: ripe"]
      [Cidr.mk 167772160 23, Cidr.mk 167772672 24] (by rfl)⟩⟩

end NetworkInfo


